import Mathlib

/-!
Formal model of the optical-analysis layer of the optiland repository
(files optiland/analysis.py and optiland/psf.py).

Each numerical routine of the source is translated into a Lean definition;
external collaborators (the ray tracer, the wavefront engine, the paraxial
property provider) are modelled as oracle parameters, exactly as the source
consumes them.  Machine floats are modelled as real (or, where every value
is rational and decidability matters, rational) numbers.
-/

open scoped BigOperators

/-- Model of numpy.linspace over the rationals: n evenly spaced samples from
a to b inclusive; for n = 1 numpy returns the single value a. -/
def npLinspace (a b : ℚ) (n : ℕ) (i : Fin n) : ℚ :=
  if n = 1 then a else a + i.val * (b - a) / (n - 1)

/-- Model of numpy.linspace over the reals (same convention as npLinspace). -/
noncomputable def npLinspaceR (a b : ℝ) (n : ℕ) (i : Fin n) : ℝ :=
  if n = 1 then a else a + i.val * (b - a) / (n - 1)

/-- Model of numpy.tile applied to a base list with a repetition count:
the base list concatenated with itself the given number of times. -/
def npTile (base : List ℚ) (reps : ℕ) : List ℚ :=
  (List.replicate reps base).flatten

/-- Model of numpy.repeat with repetition factor 2: every element of the
list is repeated twice in place. -/
def npRepeatTwice (l : List ℚ) : List ℚ :=
  (l.map (fun x => [x, x])).flatten

/-- Model of numpy.radians: degrees to radians. -/
noncomputable def npRadians (deg : ℝ) : ℝ := deg * Real.pi / 180

/- ### RayFan (analysis.py, class RayFan) -/

/-- Model of the num_points adjustment in RayFan.__init__ (analysis.py
lines 208-210): when num_points is odd, one is added, forcing it even.
The adjacent source comment states the intent is that a pupil sample
lands exactly at P = 0. -/
def rayFanNumPoints (numPoints : ℕ) : ℕ :=
  if numPoints % 2 = 1 then numPoints + 1 else numPoints

/-- Model of the pupil sample grid of RayFan._generate_data (analysis.py
line 256): np.linspace(-1, 1, num_points). -/
def rayFanPupilGrid (numPoints : ℕ) (i : Fin numPoints) : ℚ :=
  npLinspace (-1) 1 numPoints i

/- ### FieldCurvature (analysis.py, class FieldCurvature) -/

/-- Model of the Hx array of FieldCurvature._intersection_parabasal_tangential
(analysis.py line 506): np.zeros(2 * num_points). -/
def fieldCurvatureHx (numPoints : ℕ) : List ℚ :=
  List.replicate (2 * numPoints) 0

/-- Model of the Hy array of FieldCurvature._intersection_parabasal_tangential
(analysis.py line 507): np.repeat(np.linspace(0, 1, num_points), 2). -/
def fieldCurvatureHy (numPoints : ℕ) : List ℚ :=
  npRepeatTwice (List.ofFn (fun i : Fin numPoints => npLinspace 0 1 numPoints i))

/-- Model of the Py array of FieldCurvature._intersection_parabasal_tangential
(analysis.py line 510): np.tile(np.array([-delta, delta]), 128).  The
repetition count 128 is a literal in the source, independent of num_points. -/
def fieldCurvatureTangentialPy (delta : ℚ) : List ℚ :=
  npTile [-delta, delta] 128

/-- Model of the Px array of FieldCurvature._intersection_parabasal_sagittal
(analysis.py line 534): np.tile(np.array([-delta, delta]), 128), again with
the literal repetition count 128. -/
def fieldCurvatureSagittalPx (delta : ℚ) : List ℚ :=
  npTile [-delta, delta] 128

/- ### FFTPSF._get_psf_units (psf.py lines 181-198) -/

/-- Error raised by the Python interpreter when a local variable is read
before any assignment to it has executed. -/
inductive PyRuntimeError where
  | unboundLocalError : PyRuntimeError
  | valueError : PyRuntimeError
  deriving DecidableEq, Repr

/-- Model of FFTPSF._get_psf_units (psf.py lines 181-198).  The source reads
the local variable FNO in both branches of the object-distance test, but
assigns it only in the infinite-conjugate branch; in the finite-conjugate
branch the statement FNO *= (1 + np.abs(m) / p) therefore raises
UnboundLocalError.  The oracle arguments are the paraxial properties the
source queries (XPD, FNO, EPD, magnification), the wavelength, the grid
parameters, and the image shape. -/
def getPsfUnits (isInfinite : Bool) (xpd fno epd mag wl : ℚ)
    (gridSize numRays shape0 shape1 : ℕ) : Except PyRuntimeError (ℚ × ℚ) := do
  let D := xpd
  let FNO ← if isInfinite then
      Except.ok fno
    else
      let p := D / epd
      let m := mag
      let _ := p
      let _ := m
      Except.error PyRuntimeError.unboundLocalError
  let Q : ℚ := (gridSize : ℚ) / (numRays : ℚ)
  let dx := wl * FNO / Q
  let x := (shape1 : ℚ) * dx
  let y := (shape0 : ℚ) * dx
  Except.ok (x, y)

/- ### Theorems for claims C3, C4, C5 -/

lemma npTile_pair_succ (a b : ℚ) (m : ℕ) :
    npTile [a, b] (m + 1) = a :: b :: npTile [a, b] m := by
  simp [npTile, List.replicate_succ]

lemma npTile_pair_getD (a b : ℚ) (reps k : ℕ) (hk : k < reps) :
    (npTile [a, b] reps).getD (2 * k) 0 = a ∧
    (npTile [a, b] reps).getD (2 * k + 1) 0 = b := by
  induction reps generalizing k with
  | zero => omega
  | succ m ih =>
    rw [npTile_pair_succ]
    cases k with
    | zero => simp
    | succ k =>
      have h2 : 2 * (k + 1) = 2 * k + 1 + 1 := by ring
      rw [h2]
      simp only [List.getD_cons_succ]
      exact ih k (by omega)

lemma npTile_length (base : List ℚ) (reps : ℕ) :
    (npTile base reps).length = reps * base.length := by
  induction reps with
  | zero => simp [npTile]
  | succ m ih =>
    have h : npTile base (m + 1) = base ++ npTile base m := by
      simp [npTile, List.replicate_succ]
    rw [h, List.length_append, ih]
    ring

/-- C3: the spec claims that for every configured num_points the traced
pupil-offset array (Py tangential, Px sagittal) has length 2 * num_points,
alternating -delta, +delta.  The source hardcodes the tile repetition count
to 128, so the offset array always has length 256 and alternates -delta,
+delta over 128 pairs regardless of num_points: at num_points = 2 the field
arrays Hx and Hy have length 4 while Py has length 256, and 256 is not
2 * 2.  (Only at the default num_points = 128 do the lengths agree.) -/
theorem fieldCurvature_py_length_hardcoded :
    (fieldCurvatureTangentialPy (1 / 100000)).length = 256 ∧
    (fieldCurvatureSagittalPx (1 / 100000)).length = 256 ∧
    (fieldCurvatureHx 2).length = 2 * 2 ∧
    (fieldCurvatureHy 2).length = 2 * 2 ∧
    (fieldCurvatureTangentialPy (1 / 100000)).length ≠ 2 * 2 ∧
    (∀ d : ℚ, ∀ k : ℕ, k < 128 →
      (fieldCurvatureTangentialPy d).getD (2 * k) 0 = -d ∧
      (fieldCurvatureTangentialPy d).getD (2 * k + 1) 0 = d) := by
  refine ⟨?_, ?_, ?_, ?_, ?_, ?_⟩
  · simp [fieldCurvatureTangentialPy, npTile_length]
  · simp [fieldCurvatureSagittalPx, npTile_length]
  · simp [fieldCurvatureHx]
  · simp [fieldCurvatureHy, npRepeatTwice, List.map_ofFn]
  · simp [fieldCurvatureTangentialPy, npTile_length]
  · intro d k hk
    exact npTile_pair_getD (-d) d 128 k hk

/-- C4: the spec claims RayFan forces num_points even and that the resulting
grid np.linspace(-1, 1, num_points) contains a sample exactly at pupil
coordinate 0 at index num_points / 2.  The source does force num_points even
(3 becomes 4, 4 stays 4), but an even-length symmetric linspace contains no
zero sample: for num_points = 4 the sample at index 4 / 2 = 2 equals 1 / 3,
and no sample equals 0.  This contradicts the source's own comment, which
says the adjustment is made so that a point lies at P = 0. -/
theorem rayFan_grid_misses_zero :
    rayFanNumPoints 3 = 4 ∧
    rayFanNumPoints 4 = 4 ∧
    rayFanPupilGrid 4 ⟨4 / 2, by omega⟩ = 1 / 3 ∧
    (∀ i : Fin 4, rayFanPupilGrid 4 i ≠ 0) := by
  refine ⟨rfl, rfl, ?_, ?_⟩
  · norm_num [rayFanPupilGrid, npLinspace]
  · intro i
    fin_cases i <;> norm_num [rayFanPupilGrid, npLinspace]

/-- C5: the spec claims _get_psf_units returns a magnification-scaled result
when the object surface is not at infinity.  In the source the variable FNO
is assigned only in the infinite-conjugate branch, so the finite-conjugate
branch raises UnboundLocalError instead of returning; at an infinite
conjugate the pixel scale dx = wavelength * FNO / (grid_size / num_rays) is
produced as claimed (here wavelength 11/20, FNO 3, grid_size 1024,
num_rays 128, image shape 512 x 512 give dx = 33/160 and x = y = 528/5). -/
theorem getPsfUnits_finite_conjugate_fails :
    getPsfUnits false 2 3 4 5 (11 / 20) 1024 128 512 512
      = Except.error PyRuntimeError.unboundLocalError ∧
    getPsfUnits true 2 3 4 5 (11 / 20) 1024 128 512 512
      = Except.ok (528 / 5, 528 / 5) := by
  constructor
  · rfl
  · show Except.ok ((((512 : ℕ) : ℚ)) * ((11 / 20) * 3 / (((1024 : ℕ) : ℚ) / ((128 : ℕ) : ℚ))),
        (((512 : ℕ) : ℚ)) * ((11 / 20) * 3 / (((1024 : ℕ) : ℚ) / ((128 : ℕ) : ℚ)))) = _
    norm_num

/- ### Distortion (analysis.py, class Distortion) -/

/-- Model of a Python for-loop that appends one result per element and
aborts on the first raised exception (the loop shape of
Distortion._generate_data). -/
def exceptMapList {α β ε : Type} (f : α → Except ε β) : List α → Except ε (List β)
  | [] => Except.ok []
  | a :: as => do
    let b ← f a
    let bs ← exceptMapList f as
    Except.ok (b :: bs)

lemma exceptMapList_cons {α β ε : Type} (f : α → Except ε β) (a : α) (as : List α) :
    exceptMapList f (a :: as)
      = (f a).bind (fun b => (exceptMapList f as).bind
          (fun bs => Except.ok (b :: bs))) := rfl

lemma exceptMapList_all_ok {α β ε : Type} {f : α → Except ε β}
    (h : ∀ a, ∃ b, f a = Except.ok b) :
    ∀ l : List α, ∃ bs, exceptMapList f l = Except.ok bs := by
  intro l
  induction l with
  | nil => exact ⟨[], rfl⟩
  | cons a as ih =>
    obtain ⟨b, hb⟩ := h a
    obtain ⟨bs, hbs⟩ := ih
    exact ⟨b :: bs, by rw [exceptMapList_cons, hb, hbs]; rfl⟩

/-- Model of the Hy samples of Distortion._generate_data (analysis.py line
356): np.linspace(1e-10, 1, num_points); the first sample is offset by
epsilon = 1e-10 to avoid a zero-over-zero division at the origin. -/
noncomputable def distortionHy (numPoints : ℕ) (i : Fin numPoints) : ℝ :=
  npLinspaceR (1 / 10 ^ 10) 1 numPoints i

/-- Model of the projection branch of Distortion._generate_data (analysis.py
lines 367-375): both the f-tan and the f-theta branch compute
yp = const * tan(Hy * radians(max_field)); any other distortion_type raises
ValueError. -/
noncomputable def distortionYp (distortionType : String) (const maxField : ℝ)
    (numPoints : ℕ) : Except PyRuntimeError (Fin numPoints → ℝ) :=
  if distortionType = "f-tan" then
    Except.ok (fun i => const * Real.tan (distortionHy numPoints i * npRadians maxField))
  else if distortionType = "f-theta" then
    Except.ok (fun i => const * Real.tan (distortionHy numPoints i * npRadians maxField))
  else
    Except.error PyRuntimeError.valueError

/-- Model of one wavelength pass of Distortion._generate_data (analysis.py
lines 359-377): yr is the traced image-height array produced by the external
ray tracer for this wavelength, const = yr[0] / tan(1e-10 * radians
(max_field)) is calibrated at the epsilon field sample, and the appended
curve is 100 * (yr - yp) / yp. -/
noncomputable def distortionWaveData (distortionType : String) (numPoints : ℕ)
    (maxField : ℝ) (yr : ℕ → ℝ) : Except PyRuntimeError (Fin numPoints → ℝ) := do
  let yp ← distortionYp distortionType
    (yr 0 / Real.tan ((1 / 10 ^ 10) * npRadians maxField)) maxField numPoints
  Except.ok (fun i => 100 * (yr i - yp i) / yp i)

/-- Model of Distortion._generate_data together with its invocation from
Distortion.__init__ (analysis.py lines 335 and 354-379): the loop body runs
once per configured wavelength in order, construction aborts on the first
raised error, and self.data is assigned only when every wavelength
succeeds.  The trace oracle maps a wavelength to its traced image-height
array. -/
noncomputable def distortionGenerateData (distortionType : String)
    (numPoints : ℕ) (maxField : ℝ) (wavelengths : List ℝ) (trace : ℝ → ℕ → ℝ) :
    Except PyRuntimeError (List (Fin numPoints → ℝ)) :=
  exceptMapList
    (fun w => distortionWaveData distortionType numPoints maxField (trace w))
    wavelengths

/- ### GridDistortion (analysis.py, class GridDistortion) -/

/-- Result record of GridDistortion._generate_data (analysis.py lines
440-457): traced grid, ideal grid and maximum distortion. -/
structure GridDistortionData (n : ℕ) where
  xr : Fin n → Fin n → ℝ
  yr : Fin n → Fin n → ℝ
  xp : Fin n → Fin n → ℝ
  yp : Fin n → Fin n → ℝ
  maxDistortion : ℝ

/-- Model of the grid extent of GridDistortion._generate_data (analysis.py
lines 423-424): np.linspace(-sqrt(2)/2, sqrt(2)/2, num_points). -/
noncomputable def gridExtent (n : ℕ) (i : Fin n) : ℝ :=
  npLinspaceR (-(Real.sqrt 2 / 2)) (Real.sqrt 2 / 2) n i

/-- Model of the projection branch of GridDistortion._generate_data
(analysis.py lines 427-435).  Via np.meshgrid, Hx varies along columns (the
second index) and Hy along rows (the first index).  Both the f-tan and the
f-theta branch compute the same tan-based projection; any other
distortion_type raises ValueError. -/
noncomputable def gridDistortionXpYp (distortionType : String) (n : ℕ)
    (const maxField : ℝ) :
    Except PyRuntimeError ((Fin n → Fin n → ℝ) × (Fin n → Fin n → ℝ)) :=
  if distortionType = "f-tan" then
    Except.ok (fun _ j => const * Real.tan (gridExtent n j * npRadians maxField),
               fun i _ => const * Real.tan (gridExtent n i * npRadians maxField))
  else if distortionType = "f-theta" then
    Except.ok (fun _ j => const * Real.tan (gridExtent n j * npRadians maxField),
               fun i _ => const * Real.tan (gridExtent n i * npRadians maxField))
  else
    Except.error PyRuntimeError.valueError

/-- Model of GridDistortion._generate_data plus its invocation from
GridDistortion.__init__ (analysis.py lines 392 and 415-459).  traceY0 is the
image height y[-1, 0] of the single traced reference ray and xr, yr are the
traced grid positions already reshaped to num_points x num_points (both from
the external ray tracer).  The source flips the ideal x grid (np.flip
reverses both axes of a 2-D array, here modelled by Fin.rev on both indices)
to correct the x-axis sign inversion of the optical system, then reports
max_distortion = max(100 * delta / rp) over the grid. -/
noncomputable def gridDistortionGenerateData (distortionType : String) (n : ℕ)
    (maxField : ℝ) (traceY0 : ℝ) (xr yr : Fin n → Fin n → ℝ) :
    Except PyRuntimeError (GridDistortionData n) := do
  let p ← gridDistortionXpYp distortionType n
    (traceY0 / Real.tan ((1 / 10 ^ 10) * npRadians maxField)) maxField
  let xp : Fin n → Fin n → ℝ := fun i j => p.1 i.rev j.rev
  let yp := p.2
  let delta : Fin n → Fin n → ℝ := fun i j =>
    Real.sqrt ((xp i j - xr i j) ^ 2 + (yp i j - yr i j) ^ 2)
  let rp : Fin n → Fin n → ℝ := fun i j => Real.sqrt (xp i j ^ 2 + yp i j ^ 2)
  Except.ok { xr := xr, yr := yr, xp := xp, yp := yp,
              maxDistortion := ⨆ q : Fin n × Fin n, 100 * delta q.1 q.2 / rp q.1 q.2 }

/- ### Theorems for claims C2 and C9 -/

/-- C2: for every input, constructing Distortion (and GridDistortion) with
distortion_type f-tan produces exactly the same output as constructing it
with distortion_type f-theta, all other arguments equal, because the two
projection branches compute the same tan-based ideal image height. -/
theorem distortion_ftan_eq_ftheta (numPoints : ℕ) (maxField : ℝ)
    (wavelengths : List ℝ) (trace : ℝ → ℕ → ℝ) (n : ℕ) (traceY0 : ℝ)
    (xr yr : Fin n → Fin n → ℝ) :
    distortionGenerateData "f-tan" numPoints maxField wavelengths trace =
      distortionGenerateData "f-theta" numPoints maxField wavelengths trace ∧
    gridDistortionGenerateData "f-tan" n maxField traceY0 xr yr =
      gridDistortionGenerateData "f-theta" n maxField traceY0 xr yr := by
  exact ⟨rfl, rfl⟩

lemma distortionYp_invalid {distortionType : String}
    (h1 : distortionType ≠ "f-tan") (h2 : distortionType ≠ "f-theta")
    (const maxField : ℝ) (numPoints : ℕ) :
    distortionYp distortionType const maxField numPoints
      = Except.error PyRuntimeError.valueError := by
  rw [distortionYp, if_neg h1, if_neg h2]

lemma gridDistortionXpYp_invalid {distortionType : String}
    (h1 : distortionType ≠ "f-tan") (h2 : distortionType ≠ "f-theta")
    (n : ℕ) (const maxField : ℝ) :
    gridDistortionXpYp distortionType n const maxField
      = Except.error PyRuntimeError.valueError := by
  rw [gridDistortionXpYp, if_neg h1, if_neg h2]

lemma distortionWaveData_invalid {distortionType : String}
    (h1 : distortionType ≠ "f-tan") (h2 : distortionType ≠ "f-theta")
    (numPoints : ℕ) (maxField : ℝ) (yr : ℕ → ℝ) :
    distortionWaveData distortionType numPoints maxField yr
      = Except.error PyRuntimeError.valueError := by
  unfold distortionWaveData
  rw [distortionYp_invalid h1 h2]
  rfl

/-- C9: constructing Distortion (with at least one configured wavelength) or
GridDistortion with a distortion_type other than f-tan and f-theta raises
ValueError while _generate_data runs inside __init__, before self.data is
assigned; for f-tan and f-theta construction completes and produces data. -/
theorem distortion_invalid_type_raises (distortionType : String)
    (numPoints : ℕ) (maxField : ℝ) (wavelengths : List ℝ) (trace : ℝ → ℕ → ℝ)
    (n : ℕ) (traceY0 : ℝ) (xr yr : Fin n → Fin n → ℝ)
    (hw : wavelengths ≠ []) :
    (distortionType ≠ "f-tan" → distortionType ≠ "f-theta" →
      distortionGenerateData distortionType numPoints maxField wavelengths trace
        = Except.error PyRuntimeError.valueError ∧
      gridDistortionGenerateData distortionType n maxField traceY0 xr yr
        = Except.error PyRuntimeError.valueError) ∧
    (distortionType = "f-tan" ∨ distortionType = "f-theta" →
      (∃ v, distortionGenerateData distortionType numPoints maxField wavelengths
          trace = Except.ok v) ∧
      (∃ v, gridDistortionGenerateData distortionType n maxField traceY0 xr yr
          = Except.ok v)) := by
  constructor
  · intro h1 h2
    constructor
    · obtain ⟨w, ws, rfl⟩ : ∃ w ws, wavelengths = w :: ws := by
        cases wavelengths with
        | nil => exact absurd rfl hw
        | cons w ws => exact ⟨w, ws, rfl⟩
      unfold distortionGenerateData
      rw [exceptMapList_cons, distortionWaveData_invalid h1 h2]
      rfl
    · unfold gridDistortionGenerateData
      rw [gridDistortionXpYp_invalid h1 h2]
      rfl
  · intro h
    have hyp : ∀ const mf : ℝ, ∀ m : ℕ, ∃ f,
        distortionYp distortionType const mf m = Except.ok f := by
      intro const mf m
      rcases h with h | h <;> rw [h, distortionYp] <;> simp
    have hgrid : ∀ m : ℕ, ∀ const mf : ℝ, ∃ p,
        gridDistortionXpYp distortionType m const mf = Except.ok p := by
      intro m const mf
      rcases h with h | h <;> rw [h, gridDistortionXpYp] <;> simp
    constructor
    · apply exceptMapList_all_ok
      intro w
      unfold distortionWaveData
      obtain ⟨f, hf⟩ := hyp ((trace w) 0 / Real.tan ((1 / 10 ^ 10) * npRadians maxField))
        maxField numPoints
      rw [hf]
      exact ⟨_, rfl⟩
    · unfold gridDistortionGenerateData
      obtain ⟨p, hp⟩ := hgrid n (traceY0 / Real.tan ((1 / 10 ^ 10) * npRadians maxField))
        maxField
      rw [hp]
      exact ⟨_, rfl⟩

/-- C9 witness: at the concrete invalid distortion_type f-sine with one
configured wavelength, construction of both analyzers raises ValueError. -/
theorem distortion_invalid_type_raises_witness :
    ([(1 : ℝ)] ≠ ([] : List ℝ)) ∧
    distortionGenerateData "f-sine" 4 10 [(1 : ℝ)] (fun _ _ => 1)
      = Except.error PyRuntimeError.valueError ∧
    gridDistortionGenerateData "f-sine" 3 10 1 (fun _ _ => 1) (fun _ _ => 1)
      = Except.error PyRuntimeError.valueError := by
  have hw : [(1 : ℝ)] ≠ ([] : List ℝ) := List.cons_ne_nil 1 []
  have h := (distortion_invalid_type_raises "f-sine" 4 10 [(1 : ℝ)] (fun _ _ => 1)
    3 1 (fun _ _ => 1) (fun _ _ => 1) hw).1 (by decide) (by decide)
  exact ⟨hw, h.1, h.2⟩

/- ### SpotDiagram (analysis.py, class SpotDiagram) -/

/-- Model of np.mean of an array of m reals. -/
noncomputable def npMean (m : ℕ) (a : Fin m → ℝ) : ℝ := (∑ i, a i) / m

/-- Model of np.max of an array of m reals (junk value for m = 0, where
numpy raises instead). -/
noncomputable def npMax (m : ℕ) (a : Fin m → ℝ) : ℝ := ⨆ i : Fin m, a i

/-- Model of SpotDiagram.centroid for one field (analysis.py lines 52-59):
np.mean of x and of y over the primary-wavelength bundle of that field. -/
noncomputable def centroid (m : ℕ) (xPrimary yPrimary : Fin m → ℝ) : ℝ × ℝ :=
  (npMean m xPrimary, npMean m yPrimary)

/-- Model of the in-place subtraction wave_data -= centroid performed by
SpotDiagram._center_spots on the deep copy of one coordinate array
(analysis.py lines 86-89). -/
noncomputable def centerSpots (m : ℕ) (x : Fin m → ℝ) (c : ℝ) : Fin m → ℝ :=
  fun i => x i - c

/-- Model of SpotDiagram.geometric_spot_radius for one (field, wavelength)
bundle (analysis.py lines 61-70): np.max of sqrt(x^2 + y^2) over the
centroid-subtracted bundle. -/
noncomputable def geometricSpotRadius (m : ℕ) (x y : Fin m → ℝ) (cx cy : ℝ) : ℝ :=
  npMax m (fun i => Real.sqrt (centerSpots m x cx i ^ 2 + centerSpots m y cy i ^ 2))

/-- Model of SpotDiagram.rms_spot_radius for one (field, wavelength) bundle
(analysis.py lines 72-81): np.sqrt of np.mean of x^2 + y^2 over the
centroid-subtracted bundle. -/
noncomputable def rmsSpotRadius (m : ℕ) (x y : Fin m → ℝ) (cx cy : ℝ) : ℝ :=
  Real.sqrt (npMean m (fun i => centerSpots m x cx i ^ 2 + centerSpots m y cy i ^ 2))

lemma npMax_ge (m : ℕ) (a : Fin m → ℝ) (i : Fin m) : a i ≤ npMax m a := by
  haveI : Nonempty (Fin m) := ⟨i⟩
  exact le_ciSup (Set.finite_range a).bddAbove i

lemma sqrt_mean_le_max (m : ℕ) (hm : 0 < m) (g : Fin m → ℝ)
    (hg0 : ∀ i, 0 ≤ g i) :
    Real.sqrt (npMean m g) ≤ npMax m (fun i => Real.sqrt (g i)) := by
  haveI : Nonempty (Fin m) := ⟨⟨0, hm⟩⟩
  have hMi : ∀ i, Real.sqrt (g i) ≤ npMax m (fun i => Real.sqrt (g i)) :=
    fun i => npMax_ge m (fun i => Real.sqrt (g i)) i
  have hM0 : 0 ≤ npMax m (fun i => Real.sqrt (g i)) :=
    le_trans (Real.sqrt_nonneg _) (hMi ⟨0, hm⟩)
  have hgM : ∀ i, g i ≤ npMax m (fun i => Real.sqrt (g i)) ^ 2 := by
    intro i
    have h1 : Real.sqrt (g i) ^ 2 ≤ npMax m (fun i => Real.sqrt (g i)) ^ 2 :=
      pow_le_pow_left (Real.sqrt_nonneg _) (hMi i) 2
    rwa [Real.sq_sqrt (hg0 i)] at h1
  have hmean : npMean m g ≤ npMax m (fun i => Real.sqrt (g i)) ^ 2 := by
    rw [npMean, div_le_iff (by exact_mod_cast hm)]
    calc ∑ i, g i
        ≤ ∑ _i : Fin m, npMax m (fun i => Real.sqrt (g i)) ^ 2 :=
          Finset.sum_le_sum (fun i _ => hgM i)
      _ = m * npMax m (fun i => Real.sqrt (g i)) ^ 2 := by
          rw [Finset.sum_const, Finset.card_univ, Fintype.card_fin, nsmul_eq_mul]
      _ = npMax m (fun i => Real.sqrt (g i)) ^ 2 * m := by ring
  calc Real.sqrt (npMean m g)
      ≤ Real.sqrt (npMax m (fun i => Real.sqrt (g i)) ^ 2) :=
        Real.sqrt_le_sqrt hmean
    _ = npMax m (fun i => Real.sqrt (g i)) := Real.sqrt_sq hM0

/-- C6: for every ray bundle, every centroid reference (in particular the
primary-wavelength centroid the source uses) and every (field, wavelength)
pair, the geometric spot radius is at least the RMS spot radius: the maximum
centroid-subtracted radial distance bounds the root of the mean squared
centroid-subtracted radial distance. -/
theorem geometric_ge_rms (m : ℕ) (hm : 0 < m) (x y xPrimary yPrimary : Fin m → ℝ) :
    rmsSpotRadius m x y (centroid m xPrimary yPrimary).1
        (centroid m xPrimary yPrimary).2 ≤
      geometricSpotRadius m x y (centroid m xPrimary yPrimary).1
        (centroid m xPrimary yPrimary).2 := by
  unfold rmsSpotRadius geometricSpotRadius
  exact sqrt_mean_le_max m hm _ (fun i => by positivity)

/-- C6 witness: the inequality instantiated on a concrete one-ray bundle. -/
theorem geometric_ge_rms_witness :
    0 < 1 ∧
    rmsSpotRadius 1 (fun _ => 2) (fun _ => 3) (centroid 1 (fun _ => 5) (fun _ => 7)).1
        (centroid 1 (fun _ => 5) (fun _ => 7)).2 ≤
      geometricSpotRadius 1 (fun _ => 2) (fun _ => 3)
        (centroid 1 (fun _ => 5) (fun _ => 7)).1
        (centroid 1 (fun _ => 5) (fun _ => 7)).2 :=
  ⟨Nat.one_pos, geometric_ge_rms 1 Nat.one_pos (fun _ => 2) (fun _ => 3)
    (fun _ => 5) (fun _ => 7)⟩

/- ### EncircledEnergy (analysis.py, class EncircledEnergy) -/

/-- Model of EncircledEnergy._encircled_energy (analysis.py lines 165-166):
np.nansum(energy[radii <= radius_max]).  A NaN energy entry of a vignetted
ray is modelled as none; np.nansum makes it contribute zero to every sum.
radii is the centroid-subtracted radius array sqrt(x^2 + y^2) of the bundle
(analysis.py line 188). -/
noncomputable def encircledEnergy (m : ℕ) (radii : Fin m → ℝ)
    (energy : Fin m → Option ℝ) (radiusMax : ℝ) : ℝ :=
  ∑ i ∈ Finset.univ.filter (fun i => radii i ≤ radiusMax), (energy i).getD 0

/-- C7: for every bundle whose (non-NaN) energies are nonnegative, the
encircled-energy value is monotonically non-decreasing in the radius, its
value at radius 0 is at most its value at the curve end r_max (any
nonnegative radius, in particular the buffer * max_geometric_radius used by
_generate_encircled_energy_data), and NaN energy entries contribute zero:
replacing every NaN entry by an explicit zero energy leaves every
encircled-energy value unchanged. -/
theorem encircledEnergy_monotone (m : ℕ) (radii : Fin m → ℝ)
    (energy : Fin m → Option ℝ)
    (hpos : ∀ i v, energy i = some v → 0 ≤ v) :
    (∀ r1 r2 : ℝ, r1 ≤ r2 →
      encircledEnergy m radii energy r1 ≤ encircledEnergy m radii energy r2) ∧
    (∀ rmax : ℝ, 0 ≤ rmax →
      encircledEnergy m radii energy 0 ≤ encircledEnergy m radii energy rmax) ∧
    (∀ r : ℝ,
      encircledEnergy m radii (fun i => some ((energy i).getD 0)) r
        = encircledEnergy m radii energy r) := by
  have hnn : ∀ i : Fin m, 0 ≤ (energy i).getD 0 := by
    intro i
    cases he : energy i with
    | none => simp
    | some v => simpa using hpos i v he
  have hmono : ∀ r1 r2 : ℝ, r1 ≤ r2 →
      encircledEnergy m radii energy r1 ≤ encircledEnergy m radii energy r2 := by
    intro r1 r2 h12
    apply Finset.sum_le_sum_of_subset_of_nonneg
    · exact Finset.monotone_filter_right _ (fun i hi => le_trans hi h12)
    · intro i _ _
      exact hnn i
  exact ⟨hmono, fun rmax h0 => hmono 0 rmax h0, fun r => rfl⟩

/-- C7 witness: the monotonicity applied to a concrete two-ray bundle. -/
theorem encircledEnergy_monotone_witness :
    (∀ i v, (fun _ : Fin 2 => some (5 : ℝ)) i = some v → 0 ≤ v) ∧
    encircledEnergy 2 (fun _ => 1) (fun _ => some (5 : ℝ)) 1
      ≤ encircledEnergy 2 (fun _ => 1) (fun _ => some (5 : ℝ)) 2 := by
  have hpos : ∀ i v, (fun _ : Fin 2 => some (5 : ℝ)) i = some v → 0 ≤ v := by
    intro i v h
    have h' : some (5 : ℝ) = some v := h
    injection h' with h'
    rw [← h']
    norm_num
  exact ⟨hpos, (encircledEnergy_monotone 2 (fun _ => 1)
    (fun _ => some (5 : ℝ)) hpos).1 1 2 one_le_two⟩

/- ### SpotDiagram stored-state model (claim C8)

Python numpy arrays are mutable objects shared by reference, so the in-place
subtractions of SpotDiagram._center_spots could in principle mutate the
arrays stored in self.data.  To state the frame property faithfully, arrays
live in an explicit heap and self.data holds array references; deepcopy
allocates fresh arrays, and the in-place subtraction writes through a
reference. -/

/-- Heap of numpy array objects; an array reference is an index into arrs. -/
structure Heap where
  arrs : List (List ℝ)

/-- Dereference an array (junk empty array for a dangling reference). -/
def Heap.read (h : Heap) (i : ℕ) : List ℝ := h.arrs.getD i []

/-- Allocate a fresh array object, returning the new heap and its
reference. -/
def Heap.alloc (h : Heap) (v : List ℝ) : Heap × ℕ :=
  (⟨h.arrs ++ [v]⟩, h.arrs.length)

/-- Overwrite the array object behind a reference (numpy in-place update). -/
def Heap.write (h : Heap) (i : ℕ) (v : List ℝ) : Heap := ⟨h.arrs.set i v⟩

/-- References held by SpotDiagram.self.data: per field, per wavelength, the
pair of references to the x and y coordinate arrays. -/
abbrev SpotRefData : Type := List (List (ℕ × ℕ))

/-- All array references reachable from self.data. -/
def dataRefs (d : SpotRefData) : List ℕ :=
  (d.map (fun fd => (fd.map (fun w => [w.1, w.2])).flatten)).flatten

/-- Model of copy.deepcopy on one [x, y] wave entry: allocates fresh copies
of both coordinate arrays. -/
def deepcopyWave (h : Heap) (w : ℕ × ℕ) : Heap × (ℕ × ℕ) :=
  let ax := h.alloc (h.read w.1)
  let ay := ax.1.alloc (ax.1.read w.2)
  (ay.1, (ax.2, ay.2))

/-- Model of copy.deepcopy on one field's list of wave entries. -/
def deepcopyField : Heap → List (ℕ × ℕ) → Heap × List (ℕ × ℕ)
  | h, [] => (h, [])
  | h, w :: ws =>
    let a := deepcopyWave h w
    let b := deepcopyField a.1 ws
    (b.1, a.2 :: b.2)

/-- Model of copy.deepcopy(self.data) (analysis.py line 85). -/
def deepcopyData : Heap → SpotRefData → Heap × SpotRefData
  | h, [] => (h, [])
  | h, fd :: fds =>
    let a := deepcopyField h fd
    let b := deepcopyData a.1 fds
    (b.1, a.2 :: b.2)

/-- Model of np.mean of a heap array. -/
noncomputable def npMeanL (l : List ℝ) : ℝ := l.sum / l.length

/-- Model of np.max of a heap array (junk for the empty array, where numpy
raises). -/
noncomputable def npMaxL (l : List ℝ) : ℝ := ⨆ i : Fin l.length, l.get i

/-- Model of SpotDiagram.centroid (analysis.py lines 52-59): per field, the
means of the x and y arrays of the primary-wavelength entry.  A pure read:
the heap is not modified. -/
noncomputable def spotCentroid (h : Heap) (d : SpotRefData) (primaryIndex : ℕ) :
    List (ℝ × ℝ) :=
  d.map (fun fieldData =>
    let w := fieldData.getD primaryIndex (0, 0)
    (npMeanL (h.read w.1), npMeanL (h.read w.2)))

/-- Model of the in-place loop body of SpotDiagram._center_spots (analysis.py
lines 86-89) over one field: wave_data[0] -= cx; wave_data[1] -= cy, writing
through the references of the (copied) wave entries. -/
def centerWritesField (c : ℝ × ℝ) : Heap → List (ℕ × ℕ) → Heap
  | h, [] => h
  | h, w :: ws =>
    let h1 := h.write w.1 ((h.read w.1).map (fun v => v - c.1))
    let h2 := h1.write w.2 ((h1.read w.2).map (fun v => v - c.2))
    centerWritesField c h2 ws

/-- Model of the full in-place loop of SpotDiagram._center_spots, walking
fields together with their centroids. -/
def centerWritesData : Heap → SpotRefData → List (ℝ × ℝ) → Heap
  | h, [], _ => h
  | h, fd :: fds, cs =>
    let h1 := centerWritesField (cs.headD (0, 0)) h fd
    centerWritesData h1 fds cs.tail

/-- Model of SpotDiagram._center_spots (analysis.py lines 83-90): the data
argument passed by the caller is ignored by the source (line 85 rebinds the
local name data to deepcopy(self.data)); the centroids are computed from the
stored data, a deep copy is made, and the subtraction mutates only the
copy's arrays.  Returns the mutated copy's references and the final heap. -/
noncomputable def centerSpotsOp (h : Heap) (selfData : SpotRefData)
    (primaryIndex : ℕ) (_dataArg : SpotRefData) : Heap × SpotRefData :=
  let centroids := spotCentroid h selfData primaryIndex
  let a := deepcopyData h selfData
  let h2 := centerWritesData a.1 a.2 centroids
  (h2, a.2)

/-- Model of SpotDiagram.geometric_spot_radius (analysis.py lines 61-70):
data = self._center_spots(deepcopy(self.data)); then per field and
wavelength np.max(sqrt(x^2 + y^2)) over the centered copy. -/
noncomputable def geometricSpotRadiusOp (h : Heap) (selfData : SpotRefData)
    (primaryIndex : ℕ) : Heap × List (List ℝ) :=
  let arg := deepcopyData h selfData
  let c := centerSpotsOp arg.1 selfData primaryIndex arg.2
  (c.1, c.2.map (fun fd => fd.map (fun w =>
    npMaxL (List.zipWith (fun a b => Real.sqrt (a ^ 2 + b ^ 2))
      (c.1.read w.1) (c.1.read w.2)))))

/-- Model of SpotDiagram.rms_spot_radius (analysis.py lines 72-81):
data = self._center_spots(deepcopy(self.data)); then per field and
wavelength sqrt(np.mean(x^2 + y^2)) over the centered copy. -/
noncomputable def rmsSpotRadiusOp (h : Heap) (selfData : SpotRefData)
    (primaryIndex : ℕ) : Heap × List (List ℝ) :=
  let arg := deepcopyData h selfData
  let c := centerSpotsOp arg.1 selfData primaryIndex arg.2
  (c.1, c.2.map (fun fd => fd.map (fun w =>
    Real.sqrt (npMeanL (List.zipWith (fun a b => a ^ 2 + b ^ 2)
      (c.1.read w.1) (c.1.read w.2))))))

/-- Heap evolution that leaves every already-allocated array intact: the
heap only grows and reads of existing references are unchanged. -/
def heapGrows (h0 h : Heap) : Prop :=
  h0.arrs.length ≤ h.arrs.length ∧
    ∀ i, i < h0.arrs.length → h.read i = h0.read i

lemma heapGrows_refl (h : Heap) : heapGrows h h := ⟨le_refl _, fun _ _ => rfl⟩

lemma heapGrows_trans {h0 h1 h2 : Heap} (a : heapGrows h0 h1)
    (b : heapGrows h1 h2) : heapGrows h0 h2 :=
  ⟨le_trans a.1 b.1, fun i hi => by rw [b.2 i (lt_of_lt_of_le hi a.1), a.2 i hi]⟩

lemma heapGrows_alloc (h : Heap) (v : List ℝ) : heapGrows h (h.alloc v).1 := by
  constructor
  · simp [Heap.alloc]
  · intro i hi
    simp only [Heap.alloc, Heap.read]
    rw [List.getD_append _ _ _ _ hi]

lemma read_write_ne (h : Heap) (j : ℕ) (v : List ℝ) (i : ℕ) (hij : i ≠ j) :
    (h.write j v).read i = h.read i := by
  simp only [Heap.write, Heap.read, List.getD]
  rw [List.get?_set_ne _ _ (Ne.symm hij)]

lemma heapGrows_write (h0 h : Heap) (j : ℕ) (v : List ℝ)
    (hg : heapGrows h0 h) (hj : h0.arrs.length ≤ j) :
    heapGrows h0 (h.write j v) := by
  refine ⟨?_, ?_⟩
  · simpa [Heap.write] using hg.1
  · intro i hi
    rw [read_write_ne h j v i (by omega), hg.2 i hi]

lemma deepcopyWave_spec (h0 h : Heap) (hg : heapGrows h0 h) (w : ℕ × ℕ) :
    heapGrows h0 (deepcopyWave h w).1 ∧
    h0.arrs.length ≤ (deepcopyWave h w).2.1 ∧
    h0.arrs.length ≤ (deepcopyWave h w).2.2 := by
  refine ⟨?_, ?_, ?_⟩
  · exact heapGrows_trans hg
      (heapGrows_trans (heapGrows_alloc h _) (heapGrows_alloc _ _))
  · simpa [deepcopyWave, Heap.alloc] using hg.1
  · have hlen : h0.arrs.length ≤ h.arrs.length + 1 :=
      le_trans hg.1 (Nat.le_succ _)
    simpa [deepcopyWave, Heap.alloc] using hlen

lemma deepcopyField_spec (h0 : Heap) (ws : List (ℕ × ℕ)) :
    ∀ h : Heap, heapGrows h0 h →
      heapGrows h0 (deepcopyField h ws).1 ∧
      ∀ w ∈ (deepcopyField h ws).2,
        h0.arrs.length ≤ w.1 ∧ h0.arrs.length ≤ w.2 := by
  induction ws with
  | nil =>
    intro h hg
    exact ⟨hg, by simp [deepcopyField]⟩
  | cons w ws ih =>
    intro h hg
    have hw := deepcopyWave_spec h0 h hg w
    have hrest := ih (deepcopyWave h w).1 hw.1
    constructor
    · simpa [deepcopyField] using hrest.1
    · intro w' hw'
      simp only [deepcopyField, List.mem_cons] at hw'
      rcases hw' with h1 | h1
      · rw [h1]
        exact ⟨hw.2.1, hw.2.2⟩
      · exact hrest.2 w' h1

lemma deepcopyData_spec (h0 : Heap) (d : SpotRefData) :
    ∀ h : Heap, heapGrows h0 h →
      heapGrows h0 (deepcopyData h d).1 ∧
      ∀ fd ∈ (deepcopyData h d).2, ∀ w ∈ fd,
        h0.arrs.length ≤ w.1 ∧ h0.arrs.length ≤ w.2 := by
  induction d with
  | nil =>
    intro h hg
    exact ⟨hg, by simp [deepcopyData]⟩
  | cons fd fds ih =>
    intro h hg
    have hf := deepcopyField_spec h0 fd h hg
    have hrest := ih (deepcopyField h fd).1 hf.1
    constructor
    · simpa [deepcopyData] using hrest.1
    · intro fd' hfd' w hw
      simp only [deepcopyData, List.mem_cons] at hfd'
      rcases hfd' with h1 | h1
      · exact hf.2 w (h1 ▸ hw)
      · exact hrest.2 fd' h1 w hw

lemma centerWritesField_grows (h0 : Heap) (c : ℝ × ℝ) (ws : List (ℕ × ℕ)) :
    ∀ h : Heap, heapGrows h0 h →
      (∀ w ∈ ws, h0.arrs.length ≤ w.1 ∧ h0.arrs.length ≤ w.2) →
      heapGrows h0 (centerWritesField c h ws) := by
  induction ws with
  | nil =>
    intro h hg _
    exact hg
  | cons w ws ih =>
    intro h hg hws
    have hw := hws w (List.mem_cons_self w ws)
    have h1g : heapGrows h0 (h.write w.1 ((h.read w.1).map (fun v => v - c.1))) :=
      heapGrows_write h0 h _ _ hg hw.1
    have h2g : heapGrows h0
        ((h.write w.1 ((h.read w.1).map (fun v => v - c.1))).write w.2
          (((h.write w.1 ((h.read w.1).map (fun v => v - c.1))).read w.2).map
            (fun v => v - c.2))) :=
      heapGrows_write h0 _ _ _ h1g hw.2
    have hrest := ih _ h2g (fun w' hw' => hws w' (List.mem_cons_of_mem w hw'))
    simpa [centerWritesField] using hrest

lemma centerWritesData_grows (h0 : Heap) (d : SpotRefData) :
    ∀ h : Heap, ∀ cs : List (ℝ × ℝ), heapGrows h0 h →
      (∀ fd ∈ d, ∀ w ∈ fd, h0.arrs.length ≤ w.1 ∧ h0.arrs.length ≤ w.2) →
      heapGrows h0 (centerWritesData h d cs) := by
  induction d with
  | nil =>
    intro h cs hg _
    exact hg
  | cons fd fds ih =>
    intro h cs hg hws
    have hf := centerWritesField_grows h0 (cs.headD (0, 0)) fd h hg
      (hws fd (List.mem_cons_self fd fds))
    have hrest := ih _ cs.tail hf
      (fun fd' hfd' => hws fd' (List.mem_cons_of_mem fd hfd'))
    simpa [centerWritesData] using hrest

lemma centerSpotsOp_grows (h : Heap) (d : SpotRefData) (primaryIndex : ℕ)
    (arg : SpotRefData) :
    heapGrows h (centerSpotsOp h d primaryIndex arg).1 := by
  have hd := deepcopyData_spec h d h (heapGrows_refl h)
  have hw := centerWritesData_grows h (deepcopyData h d).2 (deepcopyData h d).1
    (spotCentroid h d primaryIndex) hd.1 hd.2
  simpa [centerSpotsOp] using hw

lemma geometricSpotRadiusOp_grows (h : Heap) (d : SpotRefData)
    (primaryIndex : ℕ) :
    heapGrows h (geometricSpotRadiusOp h d primaryIndex).1 := by
  have harg := deepcopyData_spec h d h (heapGrows_refl h)
  have hc := centerSpotsOp_grows (deepcopyData h d).1 d primaryIndex
    (deepcopyData h d).2
  simpa [geometricSpotRadiusOp] using heapGrows_trans harg.1 hc

lemma rmsSpotRadiusOp_grows (h : Heap) (d : SpotRefData) (primaryIndex : ℕ) :
    heapGrows h (rmsSpotRadiusOp h d primaryIndex).1 := by
  have harg := deepcopyData_spec h d h (heapGrows_refl h)
  have hc := centerSpotsOp_grows (deepcopyData h d).1 d primaryIndex
    (deepcopyData h d).2
  simpa [rmsSpotRadiusOp] using heapGrows_trans harg.1 hc

/-- One call to a read operation of a SpotDiagram instance. -/
inductive SpotReadCall where
  | centroidCall : SpotReadCall
  | geometricCall : SpotReadCall
  | rmsCall : SpotReadCall

/-- Heap evolution of a sequence of read-operation calls on a SpotDiagram
whose stored self.data references are d: centroid performs pure reads
(analysis.py lines 52-59), while geometric_spot_radius and rms_spot_radius
allocate deep copies and subtract the centroids in place on the copies only
(analysis.py lines 61-90). -/
noncomputable def runReadCalls (d : SpotRefData) (primaryIndex : ℕ) :
    Heap → List SpotReadCall → Heap
  | h, [] => h
  | h, c :: cs =>
    runReadCalls d primaryIndex
      (match c with
        | SpotReadCall.centroidCall => h
        | SpotReadCall.geometricCall => (geometricSpotRadiusOp h d primaryIndex).1
        | SpotReadCall.rmsCall => (rmsSpotRadiusOp h d primaryIndex).1) cs

/-- C8: the read operations centroid, geometric_spot_radius and
rms_spot_radius never mutate the stored raw ray data: for every heap whose
self.data references are valid, after any sequence of read-operation calls
every array reachable from self.data reads back exactly its value at
construction (centroid subtraction happens only on deep copies, whose
references are freshly allocated). -/
theorem spot_reads_preserve_stored_data (d : SpotRefData) (primaryIndex : ℕ)
    (calls : List SpotReadCall) :
    ∀ h : Heap, (∀ r ∈ dataRefs d, r < h.arrs.length) →
    ∀ r ∈ dataRefs d,
      (runReadCalls d primaryIndex h calls).read r = h.read r := by
  induction calls with
  | nil =>
    intro h _ r _
    rfl
  | cons c cs ih =>
    intro h hvalid r hr
    cases c with
    | centroidCall =>
      exact ih h hvalid r hr
    | geometricCall =>
      have hgrow := geometricSpotRadiusOp_grows h d primaryIndex
      have hvalid' : ∀ s ∈ dataRefs d,
          s < (geometricSpotRadiusOp h d primaryIndex).1.arrs.length :=
        fun s hs => lt_of_lt_of_le (hvalid s hs) hgrow.1
      have hstep : (runReadCalls d primaryIndex h (SpotReadCall.geometricCall :: cs))
          = runReadCalls d primaryIndex (geometricSpotRadiusOp h d primaryIndex).1 cs :=
        rfl
      rw [hstep, ih _ hvalid' r hr]
      exact hgrow.2 r (hvalid r hr)
    | rmsCall =>
      have hgrow := rmsSpotRadiusOp_grows h d primaryIndex
      have hvalid' : ∀ s ∈ dataRefs d,
          s < (rmsSpotRadiusOp h d primaryIndex).1.arrs.length :=
        fun s hs => lt_of_lt_of_le (hvalid s hs) hgrow.1
      have hstep : (runReadCalls d primaryIndex h (SpotReadCall.rmsCall :: cs))
          = runReadCalls d primaryIndex (rmsSpotRadiusOp h d primaryIndex).1 cs :=
        rfl
      rw [hstep, ih _ hvalid' r hr]
      exact hgrow.2 r (hvalid r hr)

lemma c8_witness_valid :
    ∀ r ∈ dataRefs [[(0, 1)]], r < (Heap.mk [[1, 2], [3, 4]]).arrs.length := by
  intro r hr
  simp only [dataRefs, List.map_cons, List.map_nil, List.flatten] at hr
  simp at hr
  rcases hr with h | h <;> simp [h]

/-- C8 witness: a concrete two-array heap and one-field data table, after the
call sequence geometric, rms, centroid, reads back both stored arrays
unchanged. -/
theorem spot_reads_preserve_stored_data_witness :
    (∀ r ∈ dataRefs [[(0, 1)]], r < (Heap.mk [[1, 2], [3, 4]]).arrs.length) ∧
    ∀ r ∈ dataRefs [[(0, 1)]],
      (runReadCalls [[(0, 1)]] 0 (Heap.mk [[1, 2], [3, 4]])
        [SpotReadCall.geometricCall, SpotReadCall.rmsCall,
          SpotReadCall.centroidCall]).read r
        = (Heap.mk [[1, 2], [3, 4]]).read r :=
  ⟨c8_witness_valid,
    spot_reads_preserve_stored_data [[(0, 1)]] 0
      [SpotReadCall.geometricCall, SpotReadCall.rmsCall,
        SpotReadCall.centroidCall]
      (Heap.mk [[1, 2], [3, 4]]) c8_witness_valid⟩



/- ### FFTPSF (psf.py, class FFTPSF) -/

/-- Membership of the pupil sample at grid position (i, j) in the unit
disk: R <= 1 with R = sqrt(x^2 + y^2), x = linspace(-1,1,num_rays)[j],
y = linspace(-1,1,num_rays)[i] after np.meshgrid and ravel (psf.py lines
100-104 and the mask R <= 1 on line 111). -/
def inDisk (n : ℕ) (i j : Fin n) : Prop :=
  Real.sqrt (npLinspaceR (-1) 1 n j ^ 2 + npLinspaceR (-1) 1 n i ^ 2) ≤ 1

noncomputable instance instDecidableInDisk (n : ℕ) (i j : Fin n) :
    Decidable (inDisk n i j) :=
  Real.decidableLE _ _

/-- Grid positions of the pupil samples inside the unit disk. -/
noncomputable def diskSet (n : ℕ) : Finset (Fin n × Fin n) :=
  Finset.univ.filter (fun p => inDisk n p.1 p.2)

/-- Per-wavelength wavefront input, as supplied by the external Wavefront
engine (self.data[0][k], psf.py lines 110-111): the optical path difference
and the relative amplitude of each in-disk pupil sample, addressed here by
grid position (out-of-disk positions are never read). -/
structure WavefrontData (n : ℕ) where
  opd : Fin n → Fin n → ℝ
  amplitude : Fin n → Fin n → ℝ

/-- Model of np.mean(self.data[0][k][1]) (psf.py line 110): the
relative-amplitude array carries one entry per in-disk pupil sample, so its
mean is the mean over the in-disk grid positions. -/
noncomputable def ampMean (n : ℕ) (amplitude : Fin n → Fin n → ℝ) : ℝ :=
  (∑ p ∈ diskSet n, amplitude p.1 p.2) / (diskSet n).card

/-- Model of the complex pupil built by FFTPSF._generate_pupils (psf.py
lines 99-115): zero outside the unit disk, and
(amplitude / mean(amplitude)) * exp(1j * 2 * pi * OPD) inside it. -/
noncomputable def generatePupil (n : ℕ) (w : WavefrontData n) :
    Fin n → Fin n → ℂ :=
  fun i j =>
    if inDisk n i j then
      ((w.amplitude i j / ampMean n w.amplitude : ℝ) : ℂ)
        * Complex.exp (Complex.I * ((2 * Real.pi * w.opd i j : ℝ) : ℂ))
    else 0

/-- Model of the pupil list of FFTPSF._generate_pupils: one complex pupil
grid per wavelength. -/
noncomputable def generatePupils (n : ℕ) (data : List (WavefrontData n)) :
    List (Fin n → Fin n → ℂ) :=
  data.map (generatePupil n)

/-- Model of the symmetric padding amount of FFTPSF._pad_pupils (psf.py line
167): pad = (grid_size - num_rays) // 2. -/
def padAmount (n gridSize : ℕ) : ℕ := (gridSize - n) / 2

/-- Side length of the padded pupil grid: num_rays + 2 * pad. -/
def padSize (n gridSize : ℕ) : ℕ := n + 2 * padAmount n gridSize

/-- Model of np.pad with constant zeros (psf.py lines 168-169), polymorphic
in the entry type: the original grid sits at offset pad in the padded grid. -/
def padGrid {α : Type} [Zero α] (n gridSize : ℕ) (P : Fin n → Fin n → α) :
    Fin (padSize n gridSize) → Fin (padSize n gridSize) → α :=
  fun i j =>
    if h : padAmount n gridSize ≤ i.val ∧ i.val < padAmount n gridSize + n ∧
        padAmount n gridSize ≤ j.val ∧ j.val < padAmount n gridSize + n then
      P ⟨i.val - padAmount n gridSize, by omega⟩
        ⟨j.val - padAmount n gridSize, by omega⟩
    else 0

/-- Twiddle factor of the two-dimensional discrete Fourier transform:
exp(-2 * pi * i * m / N). -/
noncomputable def dftKernel (N m : ℕ) : ℂ :=
  Complex.exp (-2 * (Real.pi : ℂ) * Complex.I * (m : ℂ) / (N : ℂ))

/-- Model of np.fft.fft2 (psf.py line 125):
F[u, v] = sum over j, k of P[j, k] * exp(-2 pi i (u j + v k) / N). -/
noncomputable def dft2 (N : ℕ) (P : Fin N → Fin N → ℂ) (u v : Fin N) : ℂ :=
  ∑ j : Fin N, ∑ k : Fin N, P j k * dftKernel N (u.val * j.val + v.val * k.val)

/-- Source row (or column) index of np.fft.fftshift: fftshift rolls each
axis by N // 2, so output index u reads input index (u + (N - N//2)) mod N. -/
def shiftIdx (N : ℕ) (u : Fin N) : Fin N :=
  ⟨(u.val + (N - N / 2)) % N, Nat.mod_lt _ u.pos⟩

/-- Model of np.fft.fftshift applied to a two-dimensional grid. -/
noncomputable def fftshift2 (N : ℕ) (A : Fin N → Fin N → ℂ) :
    Fin N → Fin N → ℂ :=
  fun u v => A (shiftIdx N u) (shiftIdx N v)

/-- Shifted pupil spectrum amp = np.fft.fftshift(np.fft.fft2(pupil))
(psf.py line 125). -/
noncomputable def psfAmp (N : ℕ) (P : Fin N → Fin N → ℂ) :
    Fin N → Fin N → ℂ :=
  fftshift2 N (dft2 N P)

/-- Per-wavelength raw intensity amp * np.conj(amp) (psf.py line 126). -/
noncomputable def psfIntensity (N : ℕ) (P : Fin N → Fin N → ℂ) (u v : Fin N) :
    ℂ :=
  psfAmp N P u v * (starRingEnd ℂ) (psfAmp N P u v)

/-- Model of np.max over a two-dimensional real grid (junk for an empty
grid, where numpy raises). -/
noncomputable def npMax2 (N : ℕ) (f : Fin N → Fin N → ℝ) : ℝ :=
  ⨆ p : Fin N × Fin N, f p.1 p.2

/-- Model of the pupil binarization of FFTPSF._get_normalization (psf.py
lines 174-175): every nonzero entry of the first pupil is replaced by 1. -/
noncomputable def binarizePupil (n : ℕ) (P : Fin n → Fin n → ℂ) :
    Fin n → Fin n → ℂ :=
  fun i j => if P i j ≠ 0 then 1 else 0

/-- Model of FFTPSF._get_normalization (psf.py lines 173-179): the peak of
the unpadded binary-pupil PSF times the number of wavelengths.  The entries
of psf_norm = amp * conj(amp) have zero imaginary part, so np.max over them
(lexicographic on complex) is the maximum of the real parts, and
np.real(max * len) is that maximum times the pupil count. -/
noncomputable def normFactor (n : ℕ) (pupils : List (Fin n → Fin n → ℂ)) :
    ℝ :=
  npMax2 n (fun u v => (psfIntensity n (binarizePupil n pupils.headI) u v).re)
    * pupils.length

/-- Model of FFTPSF._compute_psf (psf.py lines 117-128): each pupil is
zero-padded and transformed, the per-wavelength intensities are summed, and
the real part is divided by the normalization and scaled to percent. -/
noncomputable def computePsf (n gridSize : ℕ) (data : List (WavefrontData n)) :
    Fin (padSize n gridSize) → Fin (padSize n gridSize) → ℝ :=
  fun u v =>
    (((generatePupils n data).map (fun P =>
        psfIntensity (padSize n gridSize) (padGrid n gridSize P) u v)).sum).re
      / normFactor n (generatePupils n data) * 100

/-- Peak of the computed PSF grid: np.max(self.psf). -/
noncomputable def psfPeak (n gridSize : ℕ) (data : List (WavefrontData n)) :
    ℝ :=
  npMax2 (padSize n gridSize) (computePsf n gridSize data)

lemma ampMean_smul (n : ℕ) (amp : Fin n → Fin n → ℝ) (c : ℝ) :
    ampMean n (fun i j => c * amp i j) = c * ampMean n amp := by
  unfold ampMean
  rw [← Finset.mul_sum, mul_div_assoc]

lemma generatePupil_smul (n : ℕ) (w : WavefrontData n) (c : ℝ) (hc : c ≠ 0) :
    generatePupil n ⟨w.opd, fun i j => c * w.amplitude i j⟩
      = generatePupil n w := by
  funext i j
  simp only [generatePupil]
  by_cases h : inDisk n i j
  · rw [if_pos h, if_pos h, ampMean_smul, mul_div_mul_left _ _ hc]
  · rw [if_neg h, if_neg h]

/-- C10: the FFTPSF pupil and PSF are invariant to a uniform positive
rescaling of the relative-amplitude data: multiplying every amplitude array
by c > 0 yields exactly the same complex pupil arrays (because each
amplitude is divided by its own mean before use) and therefore the same PSF
intensity grid. -/
theorem pupil_scale_invariant (n gridSize : ℕ) (data : List (WavefrontData n))
    (c : ℝ) (hc : 0 < c) :
    generatePupils n
        (data.map (fun w => ⟨w.opd, fun i j => c * w.amplitude i j⟩))
      = generatePupils n data ∧
    computePsf n gridSize
        (data.map (fun w => ⟨w.opd, fun i j => c * w.amplitude i j⟩))
      = computePsf n gridSize data := by
  have hp : generatePupils n
      (data.map (fun w => ⟨w.opd, fun i j => c * w.amplitude i j⟩))
      = generatePupils n data := by
    unfold generatePupils
    rw [List.map_map]
    exact List.map_congr_left (fun w _ => generatePupil_smul n w c hc.ne')
  refine ⟨hp, ?_⟩
  unfold computePsf
  rw [hp]

/-- C10 witness: the pupil equality instantiated on a concrete
single-wavelength wavefront with scale factor 2. -/
theorem pupil_scale_invariant_witness :
    (0 : ℝ) < 2 ∧
    generatePupils 2 (([⟨fun _ _ => 0, fun _ _ => 1⟩] : List (WavefrontData 2)).map
        (fun w => ⟨w.opd, fun i j => 2 * w.amplitude i j⟩))
      = generatePupils 2 [⟨fun _ _ => 0, fun _ _ => 1⟩] :=
  ⟨two_pos, (pupil_scale_invariant 2 4 [⟨fun _ _ => 0, fun _ _ => 1⟩] 2 two_pos).1⟩

lemma dftKernel_abs (N m : ℕ) : Complex.abs (dftKernel N m) = 1 := by
  have h : (-2 * (Real.pi : ℂ) * Complex.I * (m : ℂ) / (N : ℂ))
      = ((-2 * Real.pi * m / N : ℝ) : ℂ) * Complex.I := by
    push_cast
    ring
  rw [dftKernel, h, Complex.abs_exp_ofReal_mul_I]

lemma dftKernel_zero (N : ℕ) : dftKernel N 0 = 1 := by
  simp [dftKernel]

lemma dft2_zero_zero (N : ℕ) (hN : 0 < N) (P : Fin N → Fin N → ℂ) :
    dft2 N P ⟨0, hN⟩ ⟨0, hN⟩ = ∑ j : Fin N, ∑ k : Fin N, P j k := by
  unfold dft2
  simp [dftKernel_zero]

lemma dft2_abs_le (N : ℕ) (f : Fin N → Fin N → ℝ) (hf : ∀ i j, 0 ≤ f i j)
    (u v : Fin N) :
    Complex.abs (dft2 N (fun i j => ((f i j : ℝ) : ℂ)) u v)
      ≤ ∑ j : Fin N, ∑ k : Fin N, f j k := by
  unfold dft2
  calc Complex.abs (∑ j : Fin N, ∑ k : Fin N,
        ((f j k : ℝ) : ℂ) * dftKernel N (u.val * j.val + v.val * k.val))
      ≤ ∑ j : Fin N, Complex.abs (∑ k : Fin N,
        ((f j k : ℝ) : ℂ) * dftKernel N (u.val * j.val + v.val * k.val)) :=
        Complex.abs.sum_le _ _
    _ ≤ ∑ j : Fin N, ∑ k : Fin N, Complex.abs
        (((f j k : ℝ) : ℂ) * dftKernel N (u.val * j.val + v.val * k.val)) :=
        Finset.sum_le_sum (fun j _ => Complex.abs.sum_le _ _)
    _ = ∑ j : Fin N, ∑ k : Fin N, f j k := by
        apply Finset.sum_congr rfl
        intro j _
        apply Finset.sum_congr rfl
        intro k _
        rw [map_mul, dftKernel_abs, mul_one, Complex.abs_ofReal,
          abs_of_nonneg (hf j k)]

lemma shiftIdx_mid (N : ℕ) (hN : 0 < N) :
    shiftIdx N ⟨N / 2, Nat.div_lt_self hN one_lt_two⟩ = ⟨0, hN⟩ := by
  apply Fin.ext
  show (N / 2 + (N - N / 2)) % N = 0
  have h : N / 2 + (N - N / 2) = N := by omega
  rw [h, Nat.mod_self]

lemma psfIntensity_re_eq (N : ℕ) (P : Fin N → Fin N → ℂ) (u v : Fin N) :
    (psfIntensity N P u v).re
      = Complex.normSq (dft2 N P (shiftIdx N u) (shiftIdx N v)) := by
  unfold psfIntensity psfAmp fftshift2
  rw [Complex.mul_conj]
  simp

lemma psfIntensity_re_le (N : ℕ) (f : Fin N → Fin N → ℝ)
    (hf : ∀ i j, 0 ≤ f i j) (u v : Fin N) :
    (psfIntensity N (fun i j => ((f i j : ℝ) : ℂ)) u v).re
      ≤ (∑ j : Fin N, ∑ k : Fin N, f j k) ^ 2 := by
  rw [psfIntensity_re_eq, ← Complex.sq_abs]
  exact pow_le_pow_left (Complex.abs.nonneg _)
    (dft2_abs_le N f hf (shiftIdx N u) (shiftIdx N v)) 2

lemma psfIntensity_re_mid (N : ℕ) (hN : 0 < N) (f : Fin N → Fin N → ℝ) :
    (psfIntensity N (fun i j => ((f i j : ℝ) : ℂ))
        ⟨N / 2, Nat.div_lt_self hN one_lt_two⟩
        ⟨N / 2, Nat.div_lt_self hN one_lt_two⟩).re
      = (∑ j : Fin N, ∑ k : Fin N, f j k) ^ 2 := by
  rw [psfIntensity_re_eq, shiftIdx_mid N hN, dft2_zero_zero N hN]
  have hcast : (∑ j : Fin N, ∑ k : Fin N, ((f j k : ℝ) : ℂ))
      = ((∑ j : Fin N, ∑ k : Fin N, f j k : ℝ) : ℂ) := by
    push_cast
    rfl
  rw [hcast, Complex.normSq_ofReal, ← pow_two]

lemma npMax2_eq_of_bound (N : ℕ) (hN : 0 < N) (f : Fin N → Fin N → ℝ)
    (S : ℝ) (hle : ∀ u v, f u v ≤ S) (u0 v0 : Fin N) (heq : f u0 v0 = S) :
    npMax2 N f = S := by
  haveI : Nonempty (Fin N × Fin N) := ⟨(⟨0, hN⟩, ⟨0, hN⟩)⟩
  apply le_antisymm
  · exact ciSup_le (fun p => hle p.1 p.2)
  · rw [← heq]
    exact le_ciSup (Set.finite_range (fun p : Fin N × Fin N => f p.1 p.2)).bddAbove
      (u0, v0)

lemma sum_prod_eq_double {M : ℕ} (F : Fin M → Fin M → ℝ) :
    ∑ p : Fin M × Fin M, F p.1 p.2 = ∑ i : Fin M, ∑ j : Fin M, F i j := by
  rw [← Finset.univ_product_univ, Finset.sum_product']

lemma padGrid_ofReal (n gridSize : ℕ) (g : Fin n → Fin n → ℝ) :
    padGrid n gridSize (fun i j => ((g i j : ℝ) : ℂ))
      = fun u v => ((padGrid n gridSize g u v : ℝ) : ℂ) := by
  funext u v
  unfold padGrid
  split_ifs
  · rfl
  · exact Complex.ofReal_zero.symm

lemma padGrid_sum (n gridSize : ℕ) (g : Fin n → Fin n → ℝ) :
    ∑ u : Fin (padSize n gridSize), ∑ v : Fin (padSize n gridSize),
        padGrid n gridSize g u v
      = ∑ i : Fin n, ∑ j : Fin n, g i j := by
  rw [← sum_prod_eq_double, ← sum_prod_eq_double]
  have hpad : ∀ i : Fin n,
      padAmount n gridSize + i.val < padSize n gridSize := by
    intro i
    have := i.isLt
    unfold padSize
    omega
  let e : Fin n ↪ Fin (padSize n gridSize) :=
    ⟨fun i => ⟨padAmount n gridSize + i.val, hpad i⟩, by
      intro a b hab
      apply Fin.ext
      have hv := congrArg Fin.val hab
      simpa using hv⟩
  have hwin : ∀ q : Fin n × Fin n,
      padGrid n gridSize g ((e.prodMap e) q).1 ((e.prodMap e) q).2
        = g q.1 q.2 := by
    intro q
    have hcond : padAmount n gridSize ≤ ((e.prodMap e) q).1.val ∧
        ((e.prodMap e) q).1.val < padAmount n gridSize + n ∧
        padAmount n gridSize ≤ ((e.prodMap e) q).2.val ∧
        ((e.prodMap e) q).2.val < padAmount n gridSize + n := by
      have h1 : ((e.prodMap e) q).1.val = padAmount n gridSize + q.1.val := rfl
      have h2 : ((e.prodMap e) q).2.val = padAmount n gridSize + q.2.val := rfl
      have hq1 := q.1.isLt
      have hq2 := q.2.isLt
      exact ⟨by omega, by omega, by omega, by omega⟩
    unfold padGrid
    rw [dif_pos hcond]
    congr 1 <;> apply Fin.ext <;> simp [e]
  have hout : ∀ p ∈ (Finset.univ : Finset
        (Fin (padSize n gridSize) × Fin (padSize n gridSize))),
      p ∉ Finset.univ.map (e.prodMap e) → padGrid n gridSize g p.1 p.2 = 0 := by
    intro p _ hp
    unfold padGrid
    rw [dif_neg]
    intro hcond
    apply hp
    rw [Finset.mem_map]
    refine ⟨(⟨p.1.val - padAmount n gridSize, by omega⟩,
             ⟨p.2.val - padAmount n gridSize, by omega⟩),
      Finset.mem_univ _, ?_⟩
    apply Prod.ext <;> apply Fin.ext <;> simp [e] <;> omega
  calc ∑ p : Fin (padSize n gridSize) × Fin (padSize n gridSize),
        padGrid n gridSize g p.1 p.2
      = ∑ p ∈ Finset.univ.map (e.prodMap e), padGrid n gridSize g p.1 p.2 :=
        (Finset.sum_subset (Finset.subset_univ _) hout).symm
    _ = ∑ q : Fin n × Fin n,
          padGrid n gridSize g ((e.prodMap e) q).1 ((e.prodMap e) q).2 :=
        Finset.sum_map _ _ _
    _ = ∑ q : Fin n × Fin n, g q.1 q.2 :=
        Finset.sum_congr rfl (fun q _ => hwin q)

/-- Binary fully-transmissive pupil (P_nom of psf.py line 175), viewed as a
real grid: 1 inside the unit disk, 0 outside. -/
noncomputable def binaryPupilReal (n : ℕ) : Fin n → Fin n → ℝ :=
  fun i j => if inDisk n i j then 1 else 0

lemma binaryPupilReal_nonneg (n : ℕ) (i j : Fin n) :
    0 ≤ binaryPupilReal n i j := by
  unfold binaryPupilReal
  split <;> norm_num

lemma sum_binaryPupilReal (n : ℕ) :
    ∑ i : Fin n, ∑ j : Fin n, binaryPupilReal n i j
      = ((diskSet n).card : ℝ) := by
  rw [← sum_prod_eq_double]
  unfold binaryPupilReal diskSet
  rw [Finset.sum_boole]

lemma generatePupil_unaberrated (n : ℕ) (w : WavefrontData n) (a0 : ℝ)
    (ha : a0 ≠ 0) (hcard : (diskSet n).card ≠ 0)
    (hopd : ∀ i j, w.opd i j = 0) (hamp : ∀ i j, w.amplitude i j = a0) :
    generatePupil n w = fun i j => if inDisk n i j then (1 : ℂ) else 0 := by
  have hampf : w.amplitude = fun _ _ => a0 :=
    funext fun i => funext fun j => hamp i j
  have hmean : ampMean n w.amplitude = a0 := by
    rw [hampf]
    unfold ampMean
    rw [Finset.sum_const, nsmul_eq_mul,
      mul_div_cancel_left₀ a0 (Nat.cast_ne_zero.mpr hcard)]
  funext i j
  simp only [generatePupil]
  by_cases h : inDisk n i j
  · rw [if_pos h, if_pos h, hmean, hamp i j, div_self ha, hopd i j]
    norm_num
  · rw [if_neg h, if_neg h]

lemma binarizePupil_indicator (n : ℕ) :
    binarizePupil n (fun i j => if inDisk n i j then (1 : ℂ) else 0)
      = fun i j => if inDisk n i j then (1 : ℂ) else 0 := by
  funext i j
  simp only [binarizePupil]
  by_cases h : inDisk n i j <;> simp [h]

lemma indicator_ofReal (n : ℕ) :
    (fun i j => if inDisk n i j then (1 : ℂ) else 0)
      = fun i j => ((binaryPupilReal n i j : ℝ) : ℂ) := by
  funext i j
  unfold binaryPupilReal
  by_cases h : inDisk n i j <;> simp [h]

lemma padGrid_nonneg (n gridSize : ℕ) (g : Fin n → Fin n → ℝ)
    (hg : ∀ i j, 0 ≤ g i j) (u v : Fin (padSize n gridSize)) :
    0 ≤ padGrid n gridSize g u v := by
  unfold padGrid
  split
  · exact hg _ _
  · exact le_refl 0

lemma normFactor_unaberrated (n : ℕ) (hcard : (diskSet n).card ≠ 0) :
    normFactor n [fun i j => if inDisk n i j then (1 : ℂ) else 0]
      = ((diskSet n).card : ℝ) ^ 2 := by
  have hn : 0 < n := by
    rcases Finset.card_pos.mp (Nat.pos_of_ne_zero hcard) with ⟨p, _⟩
    exact p.1.pos
  unfold normFactor
  have hhead : ([fun i j => if inDisk n i j then (1 : ℂ) else 0] :
      List (Fin n → Fin n → ℂ)).headI
      = fun i j => if inDisk n i j then (1 : ℂ) else 0 := rfl
  rw [hhead, binarizePupil_indicator, indicator_ofReal]
  have hle : ∀ u v : Fin n,
      (psfIntensity n (fun i j => ((binaryPupilReal n i j : ℝ) : ℂ)) u v).re
        ≤ ((diskSet n).card : ℝ) ^ 2 := by
    intro u v
    have h := psfIntensity_re_le n (binaryPupilReal n)
      (binaryPupilReal_nonneg n) u v
    rwa [sum_binaryPupilReal] at h
  have heq : (psfIntensity n (fun i j => ((binaryPupilReal n i j : ℝ) : ℂ))
      ⟨n / 2, Nat.div_lt_self hn one_lt_two⟩
      ⟨n / 2, Nat.div_lt_self hn one_lt_two⟩).re
      = ((diskSet n).card : ℝ) ^ 2 := by
    rw [psfIntensity_re_mid n hn (binaryPupilReal n), sum_binaryPupilReal]
  rw [npMax2_eq_of_bound n hn _ (((diskSet n).card : ℝ) ^ 2) hle _ _ heq]
  simp

/-- C1: for a single-wavelength FFTPSF whose pupil is fully unaberrated (OPD
identically zero) and unvignetted (uniform positive relative amplitude over
the in-disk samples), the peak of the computed PSF grid equals exactly 100:
the normalization from the unpadded binary pupil equals the squared in-disk
sample count, zero padding preserves the pupil sum, and the shifted
transform attains that same squared sum at the centre sample. -/
theorem psf_unaberrated_peak_is_100 (n gridSize : ℕ) (a0 : ℝ) (ha : 0 < a0)
    (hdisk : (diskSet n).Nonempty) (_hgs : n ≤ gridSize) :
    psfPeak n gridSize [⟨fun _ _ => 0, fun _ _ => a0⟩] = 100 := by
  have hcard : (diskSet n).card ≠ 0 := hdisk.card_pos.ne'
  have hn : 0 < n := by
    obtain ⟨p, _⟩ := hdisk
    exact p.1.pos
  have hN : 0 < padSize n gridSize := by
    unfold padSize
    omega
  have hpupil : generatePupils n [⟨fun _ _ => 0, fun _ _ => a0⟩]
      = [fun i j => if inDisk n i j then (1 : ℂ) else 0] := by
    unfold generatePupils
    rw [List.map_cons, List.map_nil,
      generatePupil_unaberrated n ⟨fun _ _ => 0, fun _ _ => a0⟩ a0 ha.ne' hcard
        (fun _ _ => rfl) (fun _ _ => rfl)]
  have hpadded : padGrid n gridSize
      (fun i j => if inDisk n i j then (1 : ℂ) else 0)
      = fun u v => ((padGrid n gridSize (binaryPupilReal n) u v : ℝ) : ℂ) := by
    rw [indicator_ofReal, padGrid_ofReal]
  have hpadsum : ∑ u : Fin (padSize n gridSize), ∑ v : Fin (padSize n gridSize),
      padGrid n gridSize (binaryPupilReal n) u v = ((diskSet n).card : ℝ) := by
    rw [padGrid_sum, sum_binaryPupilReal]
  have hD : (0 : ℝ) < ((diskSet n).card : ℝ) ^ 2 := by
    have hc : (0 : ℝ) < ((diskSet n).card : ℝ) := by
      exact_mod_cast Nat.pos_of_ne_zero hcard
    positivity
  have hpsf : computePsf n gridSize [⟨fun _ _ => 0, fun _ _ => a0⟩]
      = fun u v => (psfIntensity (padSize n gridSize)
          (fun a b => ((padGrid n gridSize (binaryPupilReal n) a b : ℝ) : ℂ))
          u v).re / ((diskSet n).card : ℝ) ^ 2 * 100 := by
    funext u v
    unfold computePsf
    rw [hpupil, normFactor_unaberrated n hcard, List.map_cons, List.map_nil,
      hpadded]
    simp
  unfold psfPeak
  rw [hpsf]
  refine npMax2_eq_of_bound _ hN _ 100 ?_
    ⟨padSize n gridSize / 2, Nat.div_lt_self hN one_lt_two⟩
    ⟨padSize n gridSize / 2, Nat.div_lt_self hN one_lt_two⟩ ?_
  · intro u v
    have hle := psfIntensity_re_le (padSize n gridSize)
      (padGrid n gridSize (binaryPupilReal n))
      (padGrid_nonneg n gridSize _ (binaryPupilReal_nonneg n)) u v
    rw [hpadsum] at hle
    have h1 : (psfIntensity (padSize n gridSize)
        (fun a b => ((padGrid n gridSize (binaryPupilReal n) a b : ℝ) : ℂ))
        u v).re / ((diskSet n).card : ℝ) ^ 2 ≤ 1 := (div_le_one hD).mpr hle
    calc (psfIntensity (padSize n gridSize)
        (fun a b => ((padGrid n gridSize (binaryPupilReal n) a b : ℝ) : ℂ))
        u v).re / ((diskSet n).card : ℝ) ^ 2 * 100
        ≤ 1 * 100 := mul_le_mul_of_nonneg_right h1 (by norm_num)
      _ = 100 := one_mul 100
  · rw [psfIntensity_re_mid (padSize n gridSize) hN
      (padGrid n gridSize (binaryPupilReal n)), hpadsum, div_self hD.ne',
      one_mul]

lemma diskSet_three_nonempty : (diskSet 3).Nonempty := by
  refine ⟨(⟨1, by omega⟩, ⟨1, by omega⟩), ?_⟩
  unfold diskSet
  rw [Finset.mem_filter]
  refine ⟨Finset.mem_univ _, ?_⟩
  unfold inDisk
  have h0 : npLinspaceR (-1) 1 3 ⟨1, by omega⟩ = 0 := by
    unfold npLinspaceR
    norm_num
  rw [h0]
  norm_num

/-- C1 witness: the peak equality at a concrete 3 x 3 pupil grid padded to
grid size 4, amplitude 1. -/
theorem psf_unaberrated_peak_is_100_witness :
    (0 : ℝ) < 1 ∧ (diskSet 3).Nonempty ∧ 3 ≤ 4 ∧
    psfPeak 3 4 [⟨fun _ _ => 0, fun _ _ => 1⟩] = 100 :=
  ⟨one_pos, diskSet_three_nonempty, by decide,
    psf_unaberrated_peak_is_100 3 4 1 one_pos diskSet_three_nonempty
      (by decide)⟩
